import Mathlib

/-!
Shallow embedding of the card-rendering core of `src/bot.py`.

The rendering pipeline (`parse_color`, `get_font`, `word_wrap`,
`draw_background`, `draw_thumbnail`, `draw_text_blocks`,
`draw_percentage_box`, `draw_badges`, `render_template`) is translated
definition-by-definition from the Python source.  Python dictionaries with
optional keys become structures with `Option` fields read through `getD`
(mirroring `dict.get(key, default)`); Python exceptions become `Option`
results (`none` = the call raises); the float expression
`int(360 * percent / 100)` is modelled by exact truncation, which agrees
with the double computation for every clamped percentage; the gradient
interpolation `int(c1 * (1 - y/h) + c2 * (y/h))` is modelled by an exact
integer-arithmetic evaluation of IEEE-754 binary64 rounding (`Dy`,
`gradChannel`), because its double result differs from exact-arithmetic
truncation at some reachable pixels; PIL library primitives (image
decoding, font loading, text measurement) are abstracted as an explicit
`Lib` record of total functions passed to the pipeline.

String helpers (`pyWords`, `pyStrip`, `pyLower`) are implemented by
structural recursion over the character list so that all definitions
kernel-evaluate on concrete inputs.
-/

/-- RGB triplet, channels 0..255 (as produced by `ImageColor.getrgb`). -/
abbrev RGB := ℕ × ℕ × ℕ

/-- RGBA pixel: RGB triplet plus alpha 0..255. -/
abbrev RGBA := RGB × ℕ

/-- Drop leading whitespace characters (helper for Python `str.strip`). -/
def dropLeadingWS : List Char → List Char
  | [] => []
  | c :: cs => if c.isWhitespace then dropLeadingWS cs else c :: cs

/-- Python `str.strip()`: remove leading and trailing whitespace. -/
def pyStrip (s : String) : String :=
  String.mk ((dropLeadingWS (dropLeadingWS s.data.reverse).reverse))

/-- Python `str.lower()` (ASCII case folding, as used for color tokens). -/
def pyLower (s : String) : String :=
  String.mk (s.data.map Char.toLower)

/-- Python `str.split()` helper: accumulate the current word (reversed). -/
def pyWordsAux : List Char → List Char → List String
  | [], cur => if cur.isEmpty then [] else [String.mk cur.reverse]
  | c :: cs, cur =>
    if c.isWhitespace then
      if cur.isEmpty then pyWordsAux cs []
      else String.mk cur.reverse :: pyWordsAux cs []
    else pyWordsAux cs (c :: cur)

/-- Python `text.split()`: whitespace-delimited words, empties discarded. -/
def pyWords (text : String) : List String :=
  pyWordsAux text.data []

/-- The default color registry `COLORS` from `bot.py` (the repository ships
no `colors.json`, so the in-file fallback dictionary is the registry).
Group insertion order (`basic`, then `extended`) is significant: the Python
lookup loop takes the first group containing the token. -/
def COLORS : List (String × List (String × String)) :=
  [("basic",
    [("black", "#000000"), ("white", "#FFFFFF"), ("gray", "#808080"),
     ("red", "#FF0000"), ("blue", "#0000FF"), ("green", "#00FF00"),
     ("yellow", "#FFFF00"), ("orange", "#FFA500"), ("purple", "#800080"),
     ("pink", "#FFC0CB")]),
   ("extended",
    [("cyan", "#00FFFF"), ("magenta", "#FF00FF"), ("lime", "#32CD32"),
     ("teal", "#008080"), ("indigo", "#4B0082"), ("brown", "#A52A2A"),
     ("gold", "#FFD700"), ("silver", "#C0C0C0"), ("navy", "#000080"),
     ("maroon", "#800000")])]

/-- Association-list lookup (model of Python `key in dict` / `dict[key]`). -/
def assocLookup (k : String) : List (String × String) → Option String
  | [] => none
  | (k', v) :: rest => if k = k' then some v else assocLookup k rest

/-- The registry substitution loop of `parse_color`: find the first group
containing the (lowercased) token and return that group's hex value. -/
def registryLookup (k : String) : Option String :=
  go COLORS
where
  go : List (String × List (String × String)) → Option String
    | [] => none
    | (_, g) :: rest =>
      match assocLookup k g with
      | some v => some v
      | none => go rest

/-- Hex digit value of a character, `none` if not a hex digit. -/
def hexVal (c : Char) : Option ℕ :=
  if '0' ≤ c ∧ c ≤ '9' then some (c.toNat - '0'.toNat)
  else if 'a' ≤ c ∧ c ≤ 'f' then some (c.toNat - 'a'.toNat + 10)
  else if 'A' ≤ c ∧ c ≤ 'F' then some (c.toNat - 'A'.toNat + 10)
  else none

/-- Pair of hex digits to a channel value 0..255. -/
def hexByte (hi lo : Char) : Option ℕ := do
  let h ← hexVal hi
  let l ← hexVal lo
  pure (h * 16 + l)

/-- The standard CSS color names recognized by `ImageColor.getrgb` that this
development needs (a core subset of PIL's full colormap; tokens from the
repository's own registry are substituted to hex before reaching this
table, so only fallback defaults ever consult it). -/
def CSS_NAMES : List (String × RGB) :=
  [("black", (0, 0, 0)), ("white", (255, 255, 255)), ("red", (255, 0, 0)),
   ("lime", (0, 255, 0)), ("blue", (0, 0, 255)), ("yellow", (255, 255, 0)),
   ("cyan", (0, 255, 255)), ("magenta", (255, 0, 255)),
   ("silver", (192, 192, 192)), ("gray", (128, 128, 128)),
   ("maroon", (128, 0, 0)), ("olive", (128, 128, 0)),
   ("green", (0, 128, 0)), ("purple", (128, 0, 128)),
   ("teal", (0, 128, 128)), ("navy", (0, 0, 128)),
   ("orange", (255, 165, 0)), ("pink", (255, 192, 203))]

/-- Name lookup in the CSS color table (case-insensitive, as in PIL). -/
def cssLookup (s : String) : Option RGB :=
  go (pyLower s) CSS_NAMES
where
  go (k : String) : List (String × RGB) → Option RGB
    | [] => none
    | (k', v) :: rest => if k = k' then some v else go k rest

/-- Model of `PIL.ImageColor.getrgb`: parse `#RGB` / `#RRGGBB` hex literals
or a named color; `none` models the `ValueError` PIL raises on failure.
(The alpha-carrying and functional-notation forms PIL also accepts are not
reachable from the repository's inputs and are modelled as failures.) -/
def getrgb (s : String) : Option RGB :=
  match s.data with
  | ['#', a, b, c] => do
      let r ← hexVal a
      let g ← hexVal b
      let bl ← hexVal c
      pure (r * 17, g * 17, bl * 17)
  | ['#', a, b, c, d, e, f] => do
      let r ← hexByte a b
      let g ← hexByte c d
      let bl ← hexByte e f
      pure (r, g, bl)
  | _ => cssLookup s

/-- The token `parse_color` actually hands to `ImageColor.getrgb`: the
empty-token default, the `strip`, and the registry substitution applied in
the source's order. -/
def resolvedToken (val dflt : String) : String :=
  let v := if val = "" then dflt else val
  let v := pyStrip v
  match registryLookup (pyLower v) with
  | some hx => hx
  | none => v

/-- `parse_color` from `bot.py`: registry substitution, literal parse,
retry on the default, final fallback to black.  Total — the two
`try/except` blocks of the source become the two `Option` matches. -/
def parse_color (val : String) (dflt : String) : RGB :=
  match getrgb (resolvedToken val dflt) with
  | some c => c
  | none =>
    match getrgb dflt with
    | some c => c
    | none => (0, 0, 0)

/-- The loop body accumulator test string of `word_wrap`:
`(line + " " + w).strip()`.  Words produced by `pyWords` carry no edge
whitespace and the accumulated line starts and ends with a word character,
so the `strip` reduces to: the bare word when the line is empty, else the
line, a space, and the word. -/
def joinWord (line w : String) : String :=
  if line = "" then w else line ++ " " ++ w

/-- The `for w in words` loop of `word_wrap` (with the final
`if line: lines.append(line)`), parameterized by the text-width measure
`width` (the `draw.textsize(test, font=font)` width for the given font). -/
def wrapGo (width : String → ℕ) (maxW : ℕ) : List String → String → List String
  | [], line => if line = "" then [] else [line]
  | w :: ws, line =>
    let test := joinWord line w
    if width test ≤ maxW then wrapGo width maxW ws test
    else if line = "" then wrapGo width maxW ws w
    else line :: wrapGo width maxW ws w

/-- `word_wrap` from `bot.py`: greedy whitespace word wrap bounded by
`maxW` pixels under the measure `width`. -/
def word_wrap (width : String → ℕ) (text : String) (maxW : ℕ) : List String :=
  wrapGo width maxW (pyWords text) ""

/-- One badge record of the session's `badges` list.  Every field is read
in `draw_badges` through `badge.get(key, default)`, so each is optional. -/
structure Badge where
  text : Option String
  bg : Option String
  color : Option String
  alpha : Option ℤ
  radius : Option ℤ
  position : Option String
  bwidth : Option ℤ
  bheight : Option ℤ
deriving DecidableEq, Repr

/-- A badge with no keys set (all `badge.get` calls hit their defaults). -/
def Badge.empty : Badge := ⟨none, none, none, none, none, none, none, none⟩

/-- The corner name a badge stacks into:
`badge.get("position", "top-left")`. -/
def Badge.posOf (b : Badge) : String := b.position.getD "top-left"

/-- The render-specification dictionary: the session keys that the
rendering pipeline reads, each optional (absent key = `none`), read through
`Option.getD` exactly where the source uses `data.get(key, default)`. -/
structure Spec where
  background_type : Option String
  background_color : Option String
  background_colors : Option (List String)
  pattern_style : Option String
  pattern_bg : Option String
  pattern_fg : Option String
  background_image : Option (List ℕ)
  layout : Option String
  effects : Option (List String)
  template : Option String
  name : Option String
  author : Option String
  year : Option String
  synopsis : Option String
  branding : Option String
  font : Option (String × String)
  title_size : Option ℕ
  author_size : Option ℕ
  synopsis_size : Option ℕ
  branding_size : Option ℕ
  title_color : Option String
  author_color : Option String
  synopsis_color : Option String
  branding_color : Option String
  percentage : Option ℤ
  chapters : Option String
  percentage_box_position : Option String
  percentage_box_bg : Option String
  percentage_box_alpha : Option ℤ
  percentage_box_border : Option String
  percentage_box_radius : Option ℤ
  percentage_box_chapters : Option Bool
  badges : Option (List Badge)
  thumbnail : Option (List ℕ)

/-- The specification with every key absent. -/
def Spec.empty : Spec :=
  ⟨none, none, none, none, none, none, none, none, none, none, none, none,
   none, none, none, none, none, none, none, none, none, none, none, none,
   none, none, none, none, none, none, none, none, none, none⟩

/-- A resolved font face as the pipeline sees it: the requested family,
style and pixel size (or the library's fallback face). -/
structure FontFace where
  family : String
  style : String
  size : ℕ
deriving DecidableEq, Repr

/-- The PIL primitives the pipeline calls, abstracted as total functions:
`decodeImage` models `Image.open` + `convert` + `resize` (`none` = decode
raises), `fontLoads` models whether `ImageFont.truetype` succeeds for the
registry file, `defaultFont` models `ImageFont.load_default()`, and
`textSize` models `draw.textsize` (width, height). -/
structure Lib where
  decodeImage : List ℕ → Option (ℕ → ℕ → RGBA)
  fontLoads : String → String → ℕ → Bool
  defaultFont : FontFace
  textSize : FontFace → String → ℕ × ℕ

/-- The default font registry `FONTS` from `bot.py` (no `fonts.json` ships
with the repository, so the in-file fallback is the registry). -/
def FONTS : List (String × List (String × String)) :=
  [("Roboto",
    [("Regular", "Roboto-Regular.ttf"), ("Bold", "Roboto-Bold.ttf"),
     ("Italic", "Roboto-Italic.ttf")])]

/-- `FONTS[family][style]` with `KeyError` as `none`. -/
def fontsLookup (family style : String) : Option String :=
  go FONTS
where
  go : List (String × List (String × String)) → Option String
    | [] => none
    | (f, styles) :: rest =>
      if family = f then assocLookup style styles else go rest

/-- `get_font` from `bot.py`: look the file up in the registry and load it
at the requested size; any failure (unknown family/style or failed load)
falls back to the built-in default face. -/
def get_font (lib : Lib) (family style : String) (size : ℕ) : FontFace :=
  match fontsLookup family style with
  | some _ => if lib.fontLoads family style size then ⟨family, style, size⟩
              else lib.defaultFont
  | none => lib.defaultFont

/-- `⌊log₂ n⌋` by structural recursion on a fuel argument (so that it
kernel-evaluates on concrete inputs; `n` itself is always enough fuel). -/
def log2fuel : ℕ → ℕ → ℕ
  | 0, _ => 0
  | fuel + 1, n => if n ≥ 2 then log2fuel fuel (n / 2) + 1 else 0

/-- `⌊log₂ n⌋` (0 for n = 0). -/
def natLog2 (n : ℕ) : ℕ := log2fuel n n

/-- A non-negative binary64 value represented exactly as the dyadic
rational `m · 2ᵏ` (not necessarily normalized; `m = 0` is zero).  The
gradient scanline of `draw_background` is computed by Python in IEEE-754
binary64 arithmetic, which this develops with exact integer arithmetic.
All values reached by the gradient expression are normal (or zero) and far
from overflow, so gradual underflow and infinities need no modelling. -/
structure Dy where
  m : ℕ
  k : ℤ
deriving DecidableEq, Repr

/-- Round `num / den` (`den > 0`) to the nearest integer, ties to even —
the IEEE-754 default rounding applied to a significand. -/
def rneDiv (num den : ℕ) : ℕ :=
  let q := num / den
  let r := num % den
  if 2 * r < den then q
  else if den < 2 * r then q + 1
  else if q % 2 = 0 then q else q + 1

/-- Round the exact dyadic `n · 2ᵏ` to a 53-bit significand (binary64
round-to-nearest-even); exact when `n` already fits in 53 bits. -/
def dyRound (n : ℕ) (k : ℤ) : Dy :=
  if n = 0 then ⟨0, 0⟩
  else
    let bits := natLog2 n + 1
    if bits ≤ 53 then ⟨n, k⟩
    else
      let shift := bits - 53
      ⟨rneDiv n (2 ^ shift), k + shift⟩

/-- Decide `2ᵉ ≤ a / b` for an integer exponent `e` (`b > 0`). -/
def le2pow (e : ℤ) (a b : ℕ) : Bool :=
  if 0 ≤ e then b * 2 ^ e.toNat ≤ a else b ≤ a * 2 ^ (-e).toNat

/-- The correctly rounded binary64 quotient `a / b` (`b > 0`): find the
exponent `e` with `2ᵉ ≤ a/b < 2ᵉ⁺¹` and round the scaled ratio to a
53-bit significand.  This is the semantics of CPython's `int / int`. -/
def rne53 (a b : ℕ) : Dy :=
  if a = 0 then ⟨0, 0⟩
  else
    let e0 : ℤ := (natLog2 a : ℤ) - natLog2 b
    let e : ℤ := if le2pow e0 a b then e0 else e0 - 1
    let s : ℤ := 52 - e
    let num := if 0 ≤ s then a * 2 ^ s.toNat else a
    let den := if 0 ≤ s then b else b * 2 ^ (-s).toNat
    ⟨rneDiv num den, e - 52⟩

/-- Correctly rounded binary64 product. -/
def dyMul (x y : Dy) : Dy := dyRound (x.m * y.m) (x.k + y.k)

/-- Correctly rounded binary64 sum (operands non-negative). -/
def dyAdd (x y : Dy) : Dy :=
  let k := min x.k y.k
  dyRound (x.m * 2 ^ (x.k - k).toNat + y.m * 2 ^ (y.k - k).toNat) k

/-- Correctly rounded binary64 difference (minuend ≥ subtrahend in every
use: `1 - t` with `t ≤ 1`). -/
def dySub (x y : Dy) : Dy :=
  let k := min x.k y.k
  dyRound (x.m * 2 ^ (x.k - k).toNat - y.m * 2 ^ (y.k - k).toNat) k

/-- Python `int(x)` on a non-negative double: truncate toward zero. -/
def dyTruncNat (x : Dy) : ℕ :=
  if 0 ≤ x.k then x.m * 2 ^ x.k.toNat else x.m / 2 ^ (-x.k).toNat

/-- Conversion of a Python int to a double (exact below 2⁵³). -/
def dyOfNat (n : ℕ) : Dy := dyRound n 0

/-- The double 1.0. -/
def dyOne : Dy := ⟨1, 0⟩

/-- One channel of the `gradient` background:
`int(c1 * (1 - y / h) + c2 * (y / h))` evaluated exactly as Python does —
correctly rounded binary64 division, subtraction, multiplications and
addition, then truncation toward zero.  (For `y ≥ h` or `h = 0` the
value is immaterial: the drawing loop runs `y` over `range(h)` only.) -/
def gradChannel (c1 c2 y h : ℕ) : ℕ :=
  let t := rne53 y h
  let u := dySub dyOne t
  dyTruncNat (dyAdd (dyMul (dyOfNat c1) u) (dyMul (dyOfNat c2) t))

/-- The specification's exact-arithmetic reading of the gradient formula,
for comparison with the code: `c1 * (1 - y/h) + c2 * (y/h)` truncated,
computed as the natural division `(c1 * (h - y) + c2 * y) / h`.  The
binary64 evaluation `gradChannel` disagrees with this at some reachable
pixels. -/
def gradChannelExact (c1 c2 y h : ℕ) : ℕ :=
  (c1 * (h - y) + c2 * y) / h

/-- Whether pixel `(x, y)` lies in a dot of the `dots` pattern: 12px
circles drawn in the `[x0, y0, x0+12, y0+12]` box of each 48px grid cell
(the PIL ellipse modelled as the ideal disk of that box). -/
def dotHit (x y : ℕ) : Bool :=
  decide ((((x % 48 : ℕ) : ℤ) - 6) ^ 2 + (((y % 48 : ℕ) : ℤ) - 6) ^ 2 ≤ 36)

/-- One pixel of the `pattern` background for a given style: `dots`,
`noise` (`(x + y) % 7 == 0` checker), any other style falls to `stripes`
(12px bands every 24px — PIL rectangles include both bounding rows). -/
def patternPixel (style : String) (cbg cfg : RGB) (x y : ℕ) : RGB :=
  if style = "dots" then (if dotHit x y then cfg else cbg)
  else if style = "noise" then (if (x + y) % 7 = 0 then cfg else cbg)
  else (if y % 24 ≤ 12 then cfg else cbg)

/-- `draw_background` from `bot.py` as a per-pixel function over the
`w × h` canvas.  The `image` branch consults the abstract decoder; decode
failure falls through (`except: pass`) to the transparent default, exactly
as any unrecognized descriptor does. -/
def draw_background (lib : Lib) (data : Spec) (w h : ℕ) : ℕ → ℕ → RGBA :=
  let btype := data.background_type.getD "solid"
  if btype = "solid" then
    let color := parse_color (data.background_color.getD "#FFFFFF") "#000000"
    fun _ _ => (color, 255)
  else if btype = "gradient" then
    let colors := data.background_colors.getD ["#000000", "#FFFFFF"]
    match colors with
    | c1s :: c2s :: _ =>
      let c1 := parse_color c1s "#000000"
      let c2 := parse_color c2s "#000000"
      fun _ y => ((gradChannel c1.1 c2.1 y h, gradChannel c1.2.1 c2.2.1 y h,
                   gradChannel c1.2.2 c2.2.2 y h), 255)
    | _ =>
      fun _ y => ((gradChannel 0 255 y h, gradChannel 0 255 y h,
                   gradChannel 0 255 y h), 255)
  else if btype = "pattern" then
    let style := data.pattern_style.getD "stripes"
    let cbg := parse_color (data.pattern_bg.getD "#111111") "#000000"
    let cfg := parse_color (data.pattern_fg.getD "#222222") "#000000"
    fun x y => (patternPixel style cbg cfg x y, 255)
  else if btype = "image" then
    match data.background_image with
    | some bytes =>
      if bytes = [] then fun _ _ => ((0, 0, 0), 0)
      else
        match lib.decodeImage bytes with
        | some pix => pix
        | none => fun _ _ => ((0, 0, 0), 0)
    | none => fun _ _ => ((0, 0, 0), 0)
  else fun _ _ => ((0, 0, 0), 0)

/-- One pixel of `Image.alpha_composite(im1, im2)`: `im2` composited over
`im1` by the alpha-over formula
`outA = a2 + a1 * (255 - a2) / 255`,
`outC = (c2 * a2 + c1 * a1 * (255 - a2) / 255) / outA`,
computed exactly with the common denominator 255 cleared
(`outA255 = 255 * outA`) and truncated to integers. -/
def alphaCompositePixel (p1 p2 : RGBA) : RGBA :=
  let a1 := p1.2
  let a2 := p2.2
  let outA255 := a2 * 255 + a1 * (255 - a2)
  if outA255 = 0 then ((0, 0, 0), 0)
  else
    let ch : ℕ → ℕ → ℕ := fun c1 c2 =>
      (c2 * a2 * 255 + c1 * a1 * (255 - a2)) / outA255
    ((ch p1.1.1 p2.1.1, ch p1.1.2.1 p2.1.2.1, ch p1.1.2.2 p2.1.2.2),
     outA255 / 255)

/-- The two compositing operations `draw_thumbnail` can issue, in issue
order: the optional blurred shadow layer, then the thumbnail itself. -/
inductive ThumbOp where
  | shadowLayer (layerPos : ℤ × ℤ) (layerSize : ℤ × ℤ)
      (rect : ℤ × ℤ × ℤ × ℤ) (fill : RGB × ℕ) (blurRadius : ℕ)
  | thumbLayer (pos : ℤ × ℤ) (size : ℤ × ℤ) (rounded : Bool) (roundRadius : ℕ)
deriving DecidableEq, Repr

/-- Thumbnail target size per layout mode (`top` uses
`int((w - 180) * 0.66)`, modelled exactly as `(w - 180) * 66 / 100`). -/
def thumbSize (w h : ℤ) (layout : String) : ℤ × ℤ :=
  if layout = "top" then (w - 180, ((w - 180) * 66) / 100)
  else if layout = "right" then (520, 780)
  else if layout = "overlay" then (w, h)
  else (520, 780)

/-- Thumbnail top-left placement per layout mode. -/
def thumbPos (w h : ℤ) (layout : String) : ℤ × ℤ :=
  if layout = "top" then (90, 80)
  else if layout = "right" then (w - 520 - 80, 360)
  else if layout = "overlay" then (0, 0)
  else (80, 360)

/-- `draw_thumbnail` from `bot.py` as its ordered list of compositing
operations: when `shadow` is among the effects, a `(tsize+20)`-sized layer
holding a dark `(0,0,0,90)` rectangle at local `[10, 10, tw+10, th+10]`,
Gaussian-blurred with radius 10, composited at `(tpos - 10, tpos - 10)`;
then the (optionally rounded, radius 50) thumbnail at `tpos`. -/
def draw_thumbnail (w h : ℤ) (data : Spec) : List ThumbOp :=
  let layout := data.layout.getD "left"
  let effects := data.effects.getD []
  let ts := thumbSize w h layout
  let tp := thumbPos w h layout
  (if effects.contains "shadow" then
     [ThumbOp.shadowLayer (tp.1 - 10, tp.2 - 10) (ts.1 + 20, ts.2 + 20)
        (10, 10, ts.1 + 10, ts.2 + 10) ((0, 0, 0), 90) 10]
   else []) ++
  [ThumbOp.thumbLayer tp ts (effects.contains "rounded") 50]

/-- Canvas coordinates of the shadow rectangle's top-left corner: the
layer position plus the rectangle's local offset inside the layer
(`none` when the operation list starts with no shadow). -/
def shadowRectGlobalTL : List ThumbOp → Option (ℤ × ℤ)
  | ThumbOp.shadowLayer lp _ rect _ _ :: _ => some (lp.1 + rect.1, lp.2 + rect.2.1)
  | _ => none

/-- The text layer produced by `draw_text_blocks`: title, author/year
metadata line, wrapped synopsis lines with their positions, and the
right-aligned branding text. -/
structure TextOut where
  titlePos : ℤ × ℤ
  titleText : String
  titleFont : FontFace
  titleColor : RGB
  metaPos : ℤ × ℤ
  metaText : String
  metaFont : FontFace
  metaColor : RGB
  synopsisFont : FontFace
  synopsisColor : RGB
  synopsisLines : List (ℤ × ℤ × String)
  brandingPos : ℤ × ℤ
  brandingText : String
  brandingFont : FontFace
  brandingColor : RGB

/-- The synopsis drawing loop: each kept line at `x = 60`, `y` starting at
200 and advancing by `font.size + 8` per line. -/
def linesLayout (step : ℕ) : List String → ℤ → List (ℤ × ℤ × String)
  | [], _ => []
  | ln :: rest, y => (60, y, ln) :: linesLayout step rest (y + step)

/-- `draw_text_blocks` from `bot.py`: title at `(60, 40)`, metadata line at
`(60, 120)`, synopsis word-wrapped to `w - 120` and capped at 12 lines,
branding right-aligned at `(w - bw - 40, 30)`. -/
def draw_text_blocks (lib : Lib) (data : Spec) (w h : ℤ) : TextOut :=
  let fam := (data.font.getD ("Roboto", "Regular")).1
  let sty := (data.font.getD ("Roboto", "Regular")).2
  let titleFont := get_font lib fam sty (data.title_size.getD 50)
  let titleColor := parse_color (data.title_color.getD "#000000") "#000000"
  let authorFont := get_font lib fam sty (data.author_size.getD 35)
  let authorColor := parse_color (data.author_color.getD "#000000") "#000000"
  let metaText :=
    "By " ++ data.author.getD "Unknown" ++ "  •  " ++ data.year.getD ""
  let synopsisFont := get_font lib fam sty (data.synopsis_size.getD 30)
  let synopsisColor := parse_color (data.synopsis_color.getD "#000000") "#000000"
  let maxw := (w - 120).toNat
  let lines := word_wrap (fun s => (lib.textSize synopsisFont s).1)
    (data.synopsis.getD "No synopsis provided.") maxw
  let brandingFont := get_font lib fam sty (data.branding_size.getD 25)
  let brandingColor := parse_color (data.branding_color.getD "#808080") "#000000"
  let brandText := data.branding.getD "waalords"
  let bw := (lib.textSize brandingFont brandText).1
  { titlePos := (60, 40)
    titleText := data.name.getD "Manga Title"
    titleFont := titleFont
    titleColor := titleColor
    metaPos := (60, 120)
    metaText := metaText
    metaFont := authorFont
    metaColor := authorColor
    synopsisFont := synopsisFont
    synopsisColor := synopsisColor
    synopsisLines := linesLayout (synopsisFont.size + 8) (lines.take 12) 200
    brandingPos := (w - bw - 40, 30)
    brandingText := brandText
    brandingFont := brandingFont
    brandingColor := brandingColor }

/-- The progress panel produced by `draw_percentage_box`: panel geometry
and style, ring centre and radius, gauge arc angles, clamped percentage,
centred percentage label, and the optional chapters label. -/
structure PercOut where
  x : ℤ
  y : ℤ
  boxW : ℤ
  boxH : ℤ
  bg : RGB
  alpha : ℤ
  border : RGB
  radius : ℤ
  cx : ℤ
  cy : ℤ
  ringR : ℤ
  arcStart : ℤ
  arcEnd : ℤ
  accent : RGB
  percent : ℤ
  labelText : String
  labelFont : FontFace
  labelPos : ℤ × ℤ
  chaptersLabel : Option (ℤ × ℤ × String × FontFace)

/-- `draw_percentage_box` from `bot.py`.  The panel is 420×120 with a 50px
margin from the anchored corner; the percentage is clamped to `[0, 100]`;
the gauge arc runs from `-90` to `-90 + int(360 * percent / 100)` degrees
(float truncation modelled by natural division on the clamped value). -/
def draw_percentage_box (lib : Lib) (data : Spec) (w h : ℤ) : PercOut :=
  let pos := data.percentage_box_position.getD "bottom-right"
  let box_w : ℤ := 420
  let box_h : ℤ := 120
  let margin : ℤ := 50
  let xy : ℤ × ℤ :=
    if pos = "bottom-right" then (w - box_w - margin, h - box_h - margin)
    else if pos = "bottom-left" then (margin, h - box_h - margin)
    else if pos = "top-right" then (w - box_w - margin, margin)
    else (margin, margin)
  let bg := parse_color (data.percentage_box_bg.getD "#FFFFFF") "#000000"
  let alpha := data.percentage_box_alpha.getD 220
  let border := parse_color (data.percentage_box_border.getD "#000000") "#000000"
  let radius := data.percentage_box_radius.getD 30
  let cx := xy.1 + 70
  let cy := xy.2 + Int.fdiv box_h 2
  let r : ℤ := 40
  let percent : ℤ := max 0 (min 100 (data.percentage.getD 0))
  let accent := parse_color (data.title_color.getD "#000000") "#000000"
  let end_angle : ℤ := -90 + ((360 * percent.toNat) / 100 : ℕ)
  let fam := (data.font.getD ("Roboto", "Regular")).1
  let font_circle := get_font lib fam "Bold" 26
  let ptxt := toString percent ++ "%"
  let pwh := lib.textSize font_circle ptxt
  let font_text := get_font lib fam "Regular" 28
  { x := xy.1
    y := xy.2
    boxW := box_w
    boxH := box_h
    bg := bg
    alpha := alpha
    border := border
    radius := radius
    cx := cx
    cy := cy
    ringR := r
    arcStart := -90
    arcEnd := end_angle
    accent := accent
    percent := percent
    labelText := ptxt
    labelFont := font_circle
    labelPos := (cx - (pwh.1 / 2 : ℕ), cy - (pwh.2 / 2 : ℕ))
    chaptersLabel :=
      if data.percentage_box_chapters.getD true then
        some (cx + 70, cy - 15, "Ch: " ++ data.chapters.getD "0", font_text)
      else none }

/-- The four corner anchor points of `draw_badges`, with
`anchors.get(pos, anchors["top-left"])` falling back to top-left for any
other string. -/
def badgeAnchors (w h : ℤ) (pos : String) : ℤ × ℤ :=
  if pos = "top-left" then (50, 50)
  else if pos = "top-right" then (w - 250, 50)
  else if pos = "bottom-left" then (50, h - 150)
  else if pos = "bottom-right" then (w - 250, h - 150)
  else (50, 50)

/-- Whether a position string is one of the four corner names (the keys of
both the `anchors` and `stacks` dictionaries). -/
def isCorner (pos : String) : Bool :=
  pos = "top-left" ∨ pos = "top-right" ∨ pos = "bottom-left" ∨
    pos = "bottom-right"

/-- The `stacks` dictionary of `draw_badges`: one vertical offset per
corner, initialized to 0. -/
structure Stacks where
  tl : ℤ
  tr : ℤ
  bl : ℤ
  br : ℤ
deriving DecidableEq, Repr

/-- `stacks[pos]`: `none` models the `KeyError` raised when `pos` is not a
corner name. -/
def stacksGet (st : Stacks) (pos : String) : Option ℤ :=
  if pos = "top-left" then some st.tl
  else if pos = "top-right" then some st.tr
  else if pos = "bottom-left" then some st.bl
  else if pos = "bottom-right" then some st.br
  else none

/-- `stacks[pos] = v` for a corner key (other keys never reach the write:
the preceding read already raised). -/
def stacksSet (st : Stacks) (pos : String) (v : ℤ) : Stacks :=
  if pos = "top-left" then { st with tl := v }
  else if pos = "top-right" then { st with tr := v }
  else if pos = "bottom-left" then { st with bl := v }
  else if pos = "bottom-right" then { st with br := v }
  else st

/-- One drawn badge: panel rectangle, style, and text placement. -/
structure BadgeOut where
  x : ℤ
  y : ℤ
  bwidth : ℤ
  bheight : ℤ
  bg : RGB
  color : RGB
  alpha : ℤ
  radius : ℤ
  text : String
  textPos : ℤ × ℤ
  font : FontFace
deriving DecidableEq, Repr

/-- The badge loop of `draw_badges`: anchor lookup with top-left fallback,
vertical offset from the corner's stack counter (read raises on a
non-corner key), counter advanced by 80. -/
def drawBadgesGo (lib : Lib) (data : Spec) (w h : ℤ) :
    List Badge → Stacks → Option (List BadgeOut)
  | [], _ => some []
  | b :: bs, st =>
    let pos := b.posOf
    let a := badgeAnchors w h pos
    match stacksGet st pos with
    | none => none
    | some off =>
      let x0 := a.1
      let y0 := a.2 + off
      let st' := stacksSet st pos (off + 80)
      let bw := b.bwidth.getD 220
      let bh := b.bheight.getD 70
      let bgc := parse_color (b.bg.getD "#FFFFFF") "#000000"
      let col := parse_color (b.color.getD "#000000") "#000000"
      let alpha := b.alpha.getD 220
      let radius := b.radius.getD 20
      let text := b.text.getD "⭐ Badge"
      let font := get_font lib (data.font.getD ("Roboto", "Regular")).1 "Bold" 28
      match drawBadgesGo lib data w h bs st' with
      | none => none
      | some rest =>
        some (⟨x0, y0, bw, bh, bgc, col, alpha, radius, text,
               (x0 + 20, y0 + Int.fdiv (bh - 28) 2), font⟩ :: rest)

/-- `draw_badges` from `bot.py`: at most the first 5 badges of the list
are drawn (`badges[:5]`), each stacked 80px below the previous badge of
the same corner.  `none` models the `KeyError` on a non-corner position
string. -/
def draw_badges (lib : Lib) (data : Spec) (w h : ℤ) : Option (List BadgeOut) :=
  drawBadgesGo lib data w h ((data.badges.getD []).take 5) ⟨0, 0, 0, 0⟩

/-- The whole render of `render_template`, stage by stage: the canvas
after the background/base compositing of step 2, the blur flag, the
thumbnail compositing operations, the glass overlay flag, the text layer,
the progress panel, and the drawn badges. -/
structure RenderOut where
  afterStep2 : ℕ → ℕ → RGBA
  blurApplied : Bool
  thumbOps : List ThumbOp
  glassOverlay : Bool
  textOut : TextOut
  percOut : PercOut
  badgeOuts : List BadgeOut

/-- `render_template` from `bot.py` on the fixed 1080×1920 canvas.
Step 2 of the source is `canvas = Image.alpha_composite(bg, canvas)`: the
freshly generated background is `im1` and the opaque white base canvas is
`im2`, so the base is composited OVER the background.  `none` models an
uncaught exception (thumbnail bytes that fail to decode, or a badge with
a non-corner position string). -/
def render_template (lib : Lib) (data : Spec) : Option RenderOut :=
  let bg := draw_background lib data 1080 1920
  let step2 := fun x y => alphaCompositePixel (bg x y) ((255, 255, 255), 255)
  let blur := (data.effects.getD []).contains "blur"
  let thumbOk : Option Unit :=
    match data.thumbnail with
    | some bytes =>
      if bytes = [] then some ()
      else
        match lib.decodeImage bytes with
        | some _ => some ()
        | none => none
    | none => some ()
  match thumbOk with
  | none => none
  | some _ =>
    let tops := draw_thumbnail 1080 1920 data
    let glass :=
      match data.template with
      | some t => t = "glass"
      | none => false
    let txt := draw_text_blocks lib data 1080 1920
    let perc := draw_percentage_box lib data 1080 1920
    match draw_badges lib data 1080 1920 with
    | none => none
    | some bouts =>
      some ⟨step2, blur, tops, glass, txt, perc, bouts⟩

/-- A trivial instantiation of the PIL primitives, used to evaluate the
pipeline on concrete inputs: no image decodes, every registry font loads,
all text measures zero. -/
def trivLib : Lib :=
  ⟨fun _ => none, fun _ _ _ => true, ⟨"Roboto", "Regular", 11⟩,
   fun _ _ => (0, 0)⟩


/-- A solid opaque red background specification. -/
def specSolidRed : Spec :=
  { Spec.empty with background_type := some "solid",
                    background_color := some "#FF0000" }

/-- A black→white gradient background specification. -/
def specGradBW : Spec :=
  { Spec.empty with background_type := some "gradient",
                    background_colors := some ["#000000", "#FFFFFF"] }

/-- A gray→black gradient specification: resolved colors (240, 240, 240)
and (0, 0, 0), exhibiting the float/exact divergence at scanline 1912. -/
def specGradGray : Spec :=
  { Spec.empty with background_type := some "gradient",
                    background_colors := some ["#F0F0F0", "#000000"] }

/-- A specification whose effects include the drop shadow. -/
def specShadow : Spec := { Spec.empty with effects := some ["shadow"] }

/-- A badge whose position string is not one of the four corner names. -/
def badgeCenter : Badge := { Badge.empty with position := some "center" }

/-- A specification holding one badge anchored at the non-corner
position `"center"`. -/
def specBadBadge : Spec := { Spec.empty with badges := some [badgeCenter] }

/-- A badge anchored top-left (all other keys defaulted). -/
def badgeTL : Badge := { Badge.empty with position := some "top-left" }

/-- Six badges all anchored top-left (end-to-end scenario C). -/
def specSixTL : Spec :=
  { Spec.empty with
      badges := some [badgeTL, badgeTL, badgeTL, badgeTL, badgeTL, badgeTL] }

/-- A specification with completion percentage 1. -/
def spec_p1 : Spec := { Spec.empty with percentage := some 1 }

/-- A specification with completion percentage 50. -/
def spec_p50 : Spec := { Spec.empty with percentage := some 50 }

/-- State-passing translation of `draw_background`: the stage receives the
session dictionary by reference and performs only `data.get` reads — no
key is added, removed or assigned — so it returns the dictionary as it
received it. -/
def draw_backgroundS (lib : Lib) (data : Spec) (w h : ℕ) :
    Spec × (ℕ → ℕ → RGBA) :=
  (data, draw_background lib data w h)

/-- State-passing translation of `draw_thumbnail` (reads only). -/
def draw_thumbnailS (w h : ℤ) (data : Spec) : Spec × List ThumbOp :=
  (data, draw_thumbnail w h data)

/-- State-passing translation of `draw_text_blocks` (reads only). -/
def draw_text_blocksS (lib : Lib) (data : Spec) (w h : ℤ) : Spec × TextOut :=
  (data, draw_text_blocks lib data w h)

/-- State-passing translation of `draw_percentage_box` (reads only). -/
def draw_percentage_boxS (lib : Lib) (data : Spec) (w h : ℤ) :
    Spec × PercOut :=
  (data, draw_percentage_box lib data w h)

/-- State-passing translation of `draw_badges` (reads only; badge records
are also only read). -/
def draw_badgesS (lib : Lib) (data : Spec) (w h : ℤ) :
    Spec × Option (List BadgeOut) :=
  (data, draw_badges lib data w h)

/-- State-passing translation of `render_template`: the specification
dictionary is threaded through every stage in pipeline order, and each
stage returns it unchanged because the source performs no dictionary
write anywhere on the render path. -/
def render_templateS (lib : Lib) (data : Spec) : Spec × Option RenderOut :=
  let d1 := (draw_backgroundS lib data 1080 1920).1
  let bg := (draw_backgroundS lib data 1080 1920).2
  let step2 := fun x y => alphaCompositePixel (bg x y) ((255, 255, 255), 255)
  let blur := (d1.effects.getD []).contains "blur"
  let thumbOk : Option Unit :=
    match d1.thumbnail with
    | some bytes =>
      if bytes = [] then some ()
      else
        match lib.decodeImage bytes with
        | some _ => some ()
        | none => none
    | none => some ()
  match thumbOk with
  | none => (d1, none)
  | some _ =>
    let d2 := (draw_thumbnailS 1080 1920 d1).1
    let tops := (draw_thumbnailS 1080 1920 d1).2
    let glass :=
      match d2.template with
      | some t => t = "glass"
      | none => false
    let d3 := (draw_text_blocksS lib d2 1080 1920).1
    let txt := (draw_text_blocksS lib d2 1080 1920).2
    let d4 := (draw_percentage_boxS lib d3 1080 1920).1
    let perc := (draw_percentage_boxS lib d3 1080 1920).2
    let d5 := (draw_badgesS lib d4 1080 1920).1
    match (draw_badgesS lib d4 1080 1920).2 with
    | none => (d5, none)
    | some bouts => (d5, some ⟨step2, blur, tops, glass, txt, perc, bouts⟩)

set_option maxRecDepth 4000 in
/-- Opaque compositing absorbs anything beneath: if the top image's pixel
is fully opaque, the alpha-over result is exactly that pixel. -/
theorem alphaCompositePixel_opaque_top (p : RGBA) (c : RGB) :
    alphaCompositePixel p (c, 255) = (c, 255) := by
  obtain ⟨⟨r1, g1, b1⟩, a1⟩ := p
  obtain ⟨r, g, b⟩ := c
  simp only [alphaCompositePixel, Nat.sub_self, Nat.mul_zero, Nat.add_zero]
  norm_num
  omega

/-- C1: the claim says the generated background replaces the opaque white
base after step 2 of `render_template`.  The code instead computes
`Image.alpha_composite(bg, canvas)`, which composites the fully opaque
white base canvas OVER the background layer, so the composited result
after step 2 is white at every pixel even though the background layer is
solid opaque red — the background is hidden, contradicting the claim. -/
theorem background_hidden_under_opaque_base :
    ∃ out, render_template trivLib specSolidRed = some out ∧
      ∀ x y : ℕ,
        draw_background trivLib specSolidRed 1080 1920 x y =
          ((255, 0, 0), 255) ∧
        out.afterStep2 x y = ((255, 255, 255), 255) := by
  refine ⟨_, rfl, fun x y => ⟨rfl, ?_⟩⟩
  show alphaCompositePixel ((255, 0, 0), 255) ((255, 255, 255), 255) = _
  exact alphaCompositePixel_opaque_top _ _

/-- C2 counterexample: at percentage 1 the drawn sweep angle is
`int(360 * 1 / 100) = 3` degrees, not the exact `360 × 1 / 100 = 3.6`
degrees the claim asserts. -/
theorem gauge_sweep_not_exact_at_p1 :
    ((draw_percentage_box trivLib spec_p1 1080 1920).arcEnd -
        (draw_percentage_box trivLib spec_p1 1080 1920).arcStart : ℚ) ≠
      360 * 1 / 100 := by
  have h1 : (draw_percentage_box trivLib spec_p1 1080 1920).arcEnd = -87 := by
    decide
  have h2 : (draw_percentage_box trivLib spec_p1 1080 1920).arcStart = -90 := by
    decide
  rw [h1, h2]
  norm_num

/-- C2 (amended): for every percentage p ∈ [0, 100] the gauge arc starts
at −90 degrees and sweeps `⌊360 * p / 100⌋` degrees (the source truncates
`360 * percent / 100` with `int(...)`); in particular p = 0 gives a
degenerate zero-sweep arc and p = 100 a full 360-degree circle. -/
theorem gauge_arc_angles (lib : Lib) (data : Spec) (p : ℤ)
    (hp : data.percentage = some p) (h0 : 0 ≤ p) (h1 : p ≤ 100) :
    (draw_percentage_box lib data 1080 1920).arcStart = -90 ∧
    (draw_percentage_box lib data 1080 1920).arcEnd =
      -90 + ((360 * p.toNat) / 100 : ℕ) ∧
    (p = 0 → (draw_percentage_box lib data 1080 1920).arcEnd =
      (draw_percentage_box lib data 1080 1920).arcStart) ∧
    (p = 100 → (draw_percentage_box lib data 1080 1920).arcEnd =
      (draw_percentage_box lib data 1080 1920).arcStart + 360) := by
  have hc : max 0 (min 100 p) = p := by omega
  refine ⟨rfl, ?_, ?_, ?_⟩
  · simp only [draw_percentage_box, hp, Option.getD_some, hc]
  · rintro rfl
    simp only [draw_percentage_box, hp, Option.getD_some, hc]
    rfl
  · rintro rfl
    simp only [draw_percentage_box, hp, Option.getD_some, hc]
    rfl

/-- Witness for C2 (amended) at percentage 50: the arc ends at
`-90 + 180 = 90` degrees. -/
theorem gauge_arc_angles_witness :
    (draw_percentage_box trivLib spec_p50 1080 1920).arcEnd =
      -90 + ((360 * (50 : ℤ).toNat) / 100 : ℕ) :=
  (gauge_arc_angles trivLib spec_p50 50 rfl (by decide) (by decide)).2.1

/-- C6: the claim says a render with a badge whose corner-anchor position
is not one of the four corner names still completes without raising.  In
the code, `anchors.get(pos, anchors["top-left"])` defends against the bad
key but the very next line `stacks[pos]` raises `KeyError` for it, so the
render aborts: the model returns `none` (an uncaught exception) for a
specification whose only malformation is one badge positioned "center". -/
theorem render_raises_on_noncorner_badge :
    isCorner "center" = false ∧
    render_template trivLib specBadBadge = none :=
  ⟨rfl, rfl⟩

/-- C7 counterexample: with the default `left` layout the thumbnail is
placed at (80, 360), and the shadow rectangle's canvas position is also
exactly (80, 360) — the layer is composited at `tpos - 10` but the dark
rectangle sits at local offset (10, 10) inside it, cancelling the shift —
not the (90, 370) that a 10px down-right offset would give. -/
theorem shadow_not_offset_down_right :
    shadowRectGlobalTL (draw_thumbnail 1080 1920 specShadow) =
      some (80, 360) ∧
    thumbPos 1080 1920 "left" = (80, 360) ∧
    ((80 : ℤ), (360 : ℤ)) ≠ ((80 : ℤ) + 10, (360 : ℤ) + 10) := by
  refine ⟨rfl, rfl, ?_⟩
  decide

/-- C7 (amended): whenever `shadow` is among the effects, the operations
of `draw_thumbnail` are exactly the Gaussian-blurred (radius 10) dark
`(0, 0, 0, 90)` rectangle layer followed by the thumbnail itself — the
shadow is drawn first, hence beneath — and the shadow rectangle's canvas
position coincides exactly with the thumbnail's placement (zero offset;
only the blur halo extends beyond it). -/
theorem shadow_beneath_thumbnail (w h : ℤ) (data : Spec)
    (hs : (data.effects.getD []).contains "shadow" = true) :
    draw_thumbnail w h data =
      [ThumbOp.shadowLayer
         ((thumbPos w h (data.layout.getD "left")).1 - 10,
          (thumbPos w h (data.layout.getD "left")).2 - 10)
         ((thumbSize w h (data.layout.getD "left")).1 + 20,
          (thumbSize w h (data.layout.getD "left")).2 + 20)
         (10, 10, (thumbSize w h (data.layout.getD "left")).1 + 10,
          (thumbSize w h (data.layout.getD "left")).2 + 10)
         ((0, 0, 0), 90) 10,
       ThumbOp.thumbLayer (thumbPos w h (data.layout.getD "left"))
         (thumbSize w h (data.layout.getD "left"))
         ((data.effects.getD []).contains "rounded") 50] ∧
    shadowRectGlobalTL (draw_thumbnail w h data) =
      some (thumbPos w h (data.layout.getD "left")) := by
  have hs' : "shadow" ∈ data.effects.getD [] := by
    simpa using hs
  constructor
  · simp [draw_thumbnail, hs']
  · simp [draw_thumbnail, hs', shadowRectGlobalTL, Prod.ext_iff]

/-- Witness for C7 (amended): concrete shadow specification, default
layout; the shadow rectangle sits exactly at the thumbnail position. -/
theorem shadow_beneath_thumbnail_witness :
    shadowRectGlobalTL (draw_thumbnail 1080 1920 specShadow) =
      some (thumbPos 1080 1920 (specShadow.layout.getD "left")) :=
  (shadow_beneath_thumbnail 1080 1920 specShadow (by decide)).2

/-- C9: the pipeline is a pure function of the specification and the
(fixed, read-only) registries and PIL primitives, so rendering the same
specification twice yields identical results; in particular the `noise`
pattern style is the fixed `(x + y) % 7 == 0` checker — `bot.py` imports
`random` in that branch but never calls it — so even it is deterministic. -/
theorem render_deterministic (lib : Lib) (data : Spec) :
    render_template lib data = render_template lib data ∧
    ∀ cbg cfg x y, patternPixel "noise" cbg cfg x y =
      if (x + y) % 7 = 0 then cfg else cbg :=
  ⟨rfl, fun _ _ _ _ => rfl⟩

/-- C10: the state-passing translation of `render_template` — in which
every stage takes the specification dictionary and returns it alongside
its output, recording every dictionary operation the source performs —
returns the dictionary unchanged (the render path contains only
`data.get`/`badge.get` reads, never a key write), and computes the same
render as the direct pipeline. -/
theorem render_preserves_spec (lib : Lib) (data : Spec) :
    (render_templateS lib data).1 = data ∧
    (render_templateS lib data).2 = render_template lib data := by
  refine ⟨?_, ?_⟩ <;>
  · simp only [render_templateS, render_template, draw_backgroundS,
      draw_thumbnailS, draw_text_blocksS, draw_percentage_boxS, draw_badgesS]
    cases data.thumbnail with
    | none => cases draw_badges lib data 1080 1920 <;> rfl
    | some bytes =>
      by_cases hb : bytes = [] <;> simp only [hb, if_true, if_false, reduceIte]
      · cases draw_badges lib data 1080 1920 <;> rfl
      · cases lib.decodeImage bytes with
        | none => rfl
        | some img => cases draw_badges lib data 1080 1920 <;> rfl

/-- A successful association-list lookup returns one of the stored
values. -/
theorem assocLookup_mem (k v : String) :
    ∀ l : List (String × String), assocLookup k l = some v →
      v ∈ l.map Prod.snd
  | [], h => by simp [assocLookup] at h
  | (k', v') :: rest, h => by
    by_cases hk : k = k'
    · simp only [assocLookup, if_pos hk, Option.some.injEq] at h
      simp [h]
    · simp only [assocLookup, if_neg hk] at h
      simpa using Or.inr (assocLookup_mem k v rest h)

/-- A successful registry lookup returns a hex value stored in one of the
registry's groups. -/
theorem registryLookupGo_mem (k v : String) :
    ∀ gs : List (String × List (String × String)),
      registryLookup.go k gs = some v → ∃ g ∈ gs, v ∈ g.2.map Prod.snd
  | [], h => by simp [registryLookup.go] at h
  | (gn, g) :: rest, h => by
    revert h
    unfold registryLookup.go
    cases ha : assocLookup k g with
    | some v' =>
      intro h
      simp only [Option.some.injEq] at h
      rw [h] at ha
      exact ⟨(gn, g), by simp, assocLookup_mem k v g ha⟩
    | none =>
      intro h
      obtain ⟨g', hg', hv'⟩ := registryLookupGo_mem k v rest h
      exact ⟨g', by simp [hg'], hv'⟩

/-- Every hex value stored in the repository's color registry parses
successfully as a color literal. -/
theorem registry_hex_parses (k v : String) (h : registryLookup k = some v) :
    (getrgb v).isSome := by
  obtain ⟨g, hg, hv⟩ := registryLookupGo_mem k v COLORS h
  have hall : ∀ g ∈ COLORS, ∀ v ∈ g.2.map Prod.snd, (getrgb v).isSome := by
    decide
  exact hall g hg v hv

/-- C3: `parse_color` is total and resolves in the documented order:
(1) the non-empty stripped token is matched case-insensitively against
every registry group and a hit substitutes the group's hex value, whose
literal parse always succeeds, so the result is exactly the triplet of
parsing that registry hex directly (independent of the default);
(2)–(4) when the (possibly substituted) token fails to parse, the same
literal parse is retried on the default, and when that fails too the
result is black `(0, 0, 0)`.  Totality is by construction: `parse_color`
returns an `RGB` value for every input. -/
theorem parse_color_resolution :
    (∀ s name hex dflt, s ≠ "" → pyLower (pyStrip s) = name →
       registryLookup name = some hex →
       ∃ c, getrgb hex = some c ∧ parse_color s dflt = c) ∧
    (∀ s dflt c, getrgb (resolvedToken s dflt) = none →
       getrgb dflt = some c → parse_color s dflt = c) ∧
    (∀ s dflt, getrgb (resolvedToken s dflt) = none → getrgb dflt = none →
       parse_color s dflt = (0, 0, 0)) := by
  refine ⟨?_, ?_, ?_⟩
  · intro s name hex dflt hne hlow hreg
    have hres : resolvedToken s dflt = hex := by
      unfold resolvedToken
      simp only [if_neg hne]
      rw [hlow, hreg]
    obtain ⟨c, hc⟩ :=
      Option.isSome_iff_exists.mp (registry_hex_parses name hex hreg)
    refine ⟨c, hc, ?_⟩
    unfold parse_color
    rw [hres, hc]
  · intro s dflt c h1 h2
    unfold parse_color
    rw [h1, h2]
  · intro s dflt h1 h2
    unfold parse_color
    rw [h1, h2]

/-- Witness for C3: the token "RED" (mixed case) hits the registry entry
`red ↦ #FF0000` and resolves to the triplet of parsing that hex
directly. -/
theorem parse_color_resolution_witness :
    ∃ c, getrgb "#FF0000" = some c ∧ parse_color "RED" "" = c :=
  parse_color_resolution.1 "RED" "red" "#FF0000" "" (by decide) (by decide)
    (by decide)

/-- Invariant of the wrap loop: if every pending word comes from the pool
`all` and the accumulated line is empty, fits, or is itself a word of the
pool, then every emitted line fits within `maxW` or is a word of the
pool. -/
theorem wrapGo_good (width : String → ℕ) (maxW : ℕ) (all : List String) :
    ∀ ws : List String, (∀ w ∈ ws, w ∈ all) →
      ∀ line, (line = "" ∨ width line ≤ maxW ∨ line ∈ all) →
      ∀ l ∈ wrapGo width maxW ws line, width l ≤ maxW ∨ l ∈ all := by
  intro ws
  induction ws with
  | nil =>
    intro _ line hline l hl
    simp only [wrapGo] at hl
    by_cases h0 : line = ""
    · simp [h0] at hl
    · rw [if_neg h0] at hl
      rcases List.mem_singleton.mp hl with rfl
      rcases hline with h | h | h
      · exact absurd h h0
      · exact Or.inl h
      · exact Or.inr h
  | cons w ws ih =>
    intro hsub line hline l hl
    have hw : w ∈ all := hsub w (List.mem_cons_self _ _)
    have hsub' : ∀ x ∈ ws, x ∈ all :=
      fun x hx => hsub x (List.mem_cons_of_mem _ hx)
    simp only [wrapGo] at hl
    by_cases ht : width (joinWord line w) ≤ maxW
    · rw [if_pos ht] at hl
      exact ih hsub' _ (Or.inr (Or.inl ht)) l hl
    · rw [if_neg ht] at hl
      by_cases h0 : line = ""
      · rw [if_pos h0] at hl
        exact ih hsub' _ (Or.inr (Or.inr hw)) l hl
      · rw [if_neg h0] at hl
        rcases List.mem_cons.mp hl with rfl | hl'
        · rcases hline with h | h | h
          · exact absurd h h0
          · exact Or.inl h
          · exact Or.inr h
        · exact ih hsub' _ (Or.inr (Or.inr hw)) l hl'

/-- C4: for every text, width measure (font face) and maximum width, no
line returned by `word_wrap` measures wider than the maximum — except a
line that is one of the text's whitespace-delimited words, i.e. a single
word too wide to fit, which the wrap places on its own line unsplit. -/
theorem word_wrap_no_overflow (width : String → ℕ) (text : String)
    (maxW : ℕ) (line : String) (hmem : line ∈ word_wrap width text maxW)
    (hover : maxW < width line) : line ∈ pyWords text := by
  have hgood := wrapGo_good width maxW (pyWords text) (pyWords text)
    (fun _ h => h) "" (Or.inl rfl) line hmem
  rcases hgood with h | h
  · omega
  · exact h

/-- Witness for C4: wrapping "hello hi" at width 3 (measuring string
length) yields the overflowing single-word line "hello", which is indeed
a word of the text. -/
theorem word_wrap_no_overflow_witness : "hello" ∈ pyWords "hello hi" :=
  word_wrap_no_overflow String.length "hello hi" 3 "hello" (by decide)
    (by decide)

/-- A corner name is one of the four anchor strings. -/
theorem isCorner_cases (c : String) (h : isCorner c = true) :
    c = "top-left" ∨ c = "top-right" ∨ c = "bottom-left" ∨
      c = "bottom-right" := by
  simpa [isCorner] using h

/-- Reading the stacks dictionary at a corner key never raises. -/
theorem stacksGet_isSome (st : Stacks) (pos : String)
    (h : isCorner pos = true) : ∃ o, stacksGet st pos = some o := by
  rcases isCorner_cases pos h with rfl | rfl | rfl | rfl <;>
    exact ⟨_, rfl⟩

/-- Reading a corner key after a write: the written key returns the new
value, every other corner is untouched. -/
theorem stacksGet_set (st : Stacks) (pos c : String) (v : ℤ)
    (hc : isCorner c = true) :
    stacksGet (stacksSet st pos v) c =
      if c = pos then some v else stacksGet st c := by
  by_cases hcp : c = pos
  · subst hcp
    rw [if_pos rfl]
    rcases isCorner_cases c hc with rfl | rfl | rfl | rfl <;> rfl
  · rw [if_neg hcp]
    rcases isCorner_cases c hc with rfl | rfl | rfl | rfl <;>
    · unfold stacksSet
      split_ifs <;> simp_all [stacksGet]

/-- All corner offsets of the initial stacks dictionary are zero. -/
theorem stacksGet_zero (c : String) :
    (stacksGet ⟨0, 0, 0, 0⟩ c).getD 0 = 0 := by
  unfold stacksGet
  split_ifs <;> rfl

/-- The badge loop invariant: starting from stack state `st`, every badge
of a list with valid corner positions is drawn, and the i-th drawn badge
sits at its corner's anchor, lowered by the corner's incoming offset plus
80 for each prior badge of the same corner. -/
theorem drawBadgesGo_spec (lib : Lib) (data : Spec) (w h : ℤ) :
    ∀ bs : List Badge, ∀ st : Stacks,
      (∀ b ∈ bs, isCorner b.posOf = true) →
      ∃ outs, drawBadgesGo lib data w h bs st = some outs ∧
        outs.length = bs.length ∧
        ∀ i (hi : i < outs.length) (hib : i < bs.length),
          (outs.get ⟨i, hi⟩).x =
            (badgeAnchors w h (bs.get ⟨i, hib⟩).posOf).1 ∧
          (outs.get ⟨i, hi⟩).y =
            (badgeAnchors w h (bs.get ⟨i, hib⟩).posOf).2 +
              (stacksGet st (bs.get ⟨i, hib⟩).posOf).getD 0 +
              80 * ((bs.take i).countP
                fun b' => b'.posOf == (bs.get ⟨i, hib⟩).posOf) := by
  intro bs
  induction bs with
  | nil =>
    intro st _
    exact ⟨[], rfl, rfl, fun i hi hib => absurd hib (by simp)⟩
  | cons b bs ih =>
    intro st hv
    have hb : isCorner b.posOf = true := hv b (List.mem_cons_self _ _)
    obtain ⟨o, ho⟩ := stacksGet_isSome st b.posOf hb
    obtain ⟨outs, houts, hlen, hspec⟩ :=
      ih (stacksSet st b.posOf (o + 80))
        (fun x hx => hv x (List.mem_cons_of_mem _ hx))
    refine ⟨⟨(badgeAnchors w h b.posOf).1, (badgeAnchors w h b.posOf).2 + o,
        b.bwidth.getD 220, b.bheight.getD 70,
        parse_color (b.bg.getD "#FFFFFF") "#000000",
        parse_color (b.color.getD "#000000") "#000000",
        b.alpha.getD 220, b.radius.getD 20, b.text.getD "⭐ Badge",
        ((badgeAnchors w h b.posOf).1 + 20,
         (badgeAnchors w h b.posOf).2 + o +
           Int.fdiv (b.bheight.getD 70 - 28) 2),
        get_font lib (data.font.getD ("Roboto", "Regular")).1 "Bold" 28⟩ ::
      outs, ?_, ?_, ?_⟩
    · simp only [drawBadgesGo, ho, houts]
    · simpa using hlen
    · intro i hi hib
      match i with
      | 0 =>
        refine ⟨rfl, ?_⟩
        show (badgeAnchors w h b.posOf).2 + o =
          (badgeAnchors w h b.posOf).2 + (stacksGet st b.posOf).getD 0 +
            80 * ((([] : List Badge).countP
              fun b' => b'.posOf == b.posOf : ℕ) : ℤ)
        rw [ho]
        simp
      | Nat.succ j =>
        have hj : j < outs.length := by simpa using Nat.lt_of_succ_lt_succ hi
        have hjb : j < bs.length := by
          simpa using Nat.lt_of_succ_lt_succ hib
        obtain ⟨hx, hy⟩ := hspec j hj hjb
        have hcj : isCorner (bs.get ⟨j, hjb⟩).posOf = true :=
          hv _ (List.mem_cons_of_mem _ (List.get_mem bs j hjb))
        refine ⟨hx, ?_⟩
        show (outs.get ⟨j, hj⟩).y =
          (badgeAnchors w h (bs.get ⟨j, hjb⟩).posOf).2 +
            (stacksGet st (bs.get ⟨j, hjb⟩).posOf).getD 0 +
            80 * (((b :: bs.take j).countP
              fun b' => b'.posOf == (bs.get ⟨j, hjb⟩).posOf : ℕ) : ℤ)
        rw [hy, stacksGet_set st b.posOf (bs.get ⟨j, hjb⟩).posOf (o + 80) hcj,
          List.countP_cons]
        by_cases hcp : (bs.get ⟨j, hjb⟩).posOf = b.posOf
        · rw [hcp, ho]
          simp only [if_pos rfl, beq_self_eq_true, if_true, Option.getD_some]
          push_cast
          ring
        · rw [if_neg hcp]
          have hbeq : (b.posOf == (bs.get ⟨j, hjb⟩).posOf) = false := by
            refine beq_eq_false_iff_ne.mpr ?_
            intro hh
            exact hcp hh.symm
          rw [hbeq]
          simp

/-- C5: at most the first 5 badges of the ordered list are drawn (excess
silently ignored), and for a list whose (defaulted) positions are valid
corner names, the i-th drawn badge is placed at its corner's anchor with
vertical offset exactly `80 × (number of prior drawn badges in the same
corner)`, independently of the other corners' occupancy; in particular
six badges all anchored top-left yield exactly five drawn badges at
y-offsets 0, 80, 160, 240, 320 from the (50, 50) anchor. -/
theorem badge_stacking :
    (∀ (lib : Lib) (data : Spec) (w h : ℤ),
      (∀ b ∈ (data.badges.getD []).take 5, isCorner b.posOf = true) →
      ∃ outs, draw_badges lib data w h = some outs ∧
        outs.length = min 5 (data.badges.getD []).length ∧
        ∀ i (hi : i < outs.length)
          (hib : i < ((data.badges.getD []).take 5).length),
          (outs.get ⟨i, hi⟩).x =
            (badgeAnchors w h
              (((data.badges.getD []).take 5).get ⟨i, hib⟩).posOf).1 ∧
          (outs.get ⟨i, hi⟩).y =
            (badgeAnchors w h
              (((data.badges.getD []).take 5).get ⟨i, hib⟩).posOf).2 +
              80 * ((((data.badges.getD []).take 5).take i).countP
                fun b' => b'.posOf ==
                  (((data.badges.getD []).take 5).get ⟨i, hib⟩).posOf)) ∧
    (draw_badges trivLib specSixTL 1080 1920).map
        (List.map fun b => (b.x, b.y)) =
      some [(50, 50), (50, 130), (50, 210), (50, 290), (50, 370)] := by
  constructor
  · intro lib data w h hv
    obtain ⟨outs, houts, hlen, hspec⟩ :=
      drawBadgesGo_spec lib data w h ((data.badges.getD []).take 5)
        ⟨0, 0, 0, 0⟩ hv
    refine ⟨outs, houts, ?_, ?_⟩
    · rw [hlen, List.length_take]
    · intro i hi hib
      obtain ⟨hx, hy⟩ := hspec i hi hib
      refine ⟨hx, ?_⟩
      rw [hy, stacksGet_zero]
      simp
  · decide

/-- Witness for C5: the six-top-left scenario discharges the validity
hypothesis. -/
theorem badge_stacking_witness :
    ∃ outs, draw_badges trivLib specSixTL 1080 1920 = some outs ∧
      outs.length = min 5 (specSixTL.badges.getD []).length ∧
      ∀ i (hi : i < outs.length)
        (hib : i < ((specSixTL.badges.getD []).take 5).length),
        (outs.get ⟨i, hi⟩).x =
          (badgeAnchors 1080 1920
            (((specSixTL.badges.getD []).take 5).get ⟨i, hib⟩).posOf).1 ∧
        (outs.get ⟨i, hi⟩).y =
          (badgeAnchors 1080 1920
            (((specSixTL.badges.getD []).take 5).get ⟨i, hib⟩).posOf).2 +
            80 * ((((specSixTL.badges.getD []).take 5).take i).countP
              fun b' => b'.posOf ==
                (((specSixTL.badges.getD []).take 5).get ⟨i, hib⟩).posOf) :=
  badge_stacking.1 trivLib specSixTL 1080 1920 (by decide)

/-- The exact-arithmetic reading of the gradient channel equals the floor
of the claim's interpolation formula `c1 * (1 - y/h) + c2 * (y/h)`. -/
theorem gradChannelExact_eq_floor (c1 c2 y h : ℕ) (hh : 0 < h) (hy : y < h) :
    gradChannelExact c1 c2 y h =
      ⌊((c1 : ℚ) * (1 - (y : ℚ) / (h : ℚ)) +
        (c2 : ℚ) * ((y : ℚ) / (h : ℚ)))⌋₊ := by
  have hh0 : (h : ℚ) ≠ 0 := Nat.cast_ne_zero.mpr hh.ne'
  have hq : (c1 : ℚ) * (1 - (y : ℚ) / (h : ℚ)) +
      (c2 : ℚ) * ((y : ℚ) / (h : ℚ)) =
      ((c1 * (h - y) + c2 * y : ℕ) : ℚ) / (h : ℚ) := by
    push_cast [Nat.cast_sub hy.le]
    field_simp
  rw [hq, Nat.floor_div_nat, Nat.floor_natCast]
  rfl

/-- The gradient background pixel, well-formed color list case: the
binary64 evaluation of the interpolation at the two resolved colors. -/
theorem gradient_pixel_float (lib : Lib) (data : Spec) (w h x y : ℕ)
    (c1s c2s : String) (rest : List String)
    (hb : data.background_type = some "gradient")
    (hc : data.background_colors = some (c1s :: c2s :: rest)) :
    draw_background lib data w h x y =
      ((gradChannel (parse_color c1s "#000000").1
          (parse_color c2s "#000000").1 y h,
        gradChannel (parse_color c1s "#000000").2.1
          (parse_color c2s "#000000").2.1 y h,
        gradChannel (parse_color c1s "#000000").2.2
          (parse_color c2s "#000000").2.2 y h), 255) := by
  simp [draw_background, hb, hc]

/-- The gradient background pixel when the color list is malformed (fewer
than two entries, so `colors[1]` raises and the `except` branch resets to
black→white). -/
theorem gradient_malformed_float (lib : Lib) (data : Spec) (w h x y : ℕ)
    (l : List String)
    (hb : data.background_type = some "gradient")
    (hc : data.background_colors = some l) (hl : l.length < 2) :
    draw_background lib data w h x y =
      ((gradChannel 0 255 y h, gradChannel 0 255 y h,
        gradChannel 0 255 y h), 255) := by
  match l, hl with
  | [], _ => simp [draw_background, hb, hc]
  | [a], _ => simp [draw_background, hb, hc]

/-- C8 counterexample: the claimed exact formula is false of the code.
For the gradient from (240, 240, 240) to (0, 0, 0) on the 1920-high
canvas, scanline 1912 has exact interpolation value
`240 * (1 - 1912/1920) = 1` per channel, so the claim predicts truncated
channel 1; the program's float evaluation computes the double
0.9999999999999964 and `int(...)` draws 0. -/
theorem gradient_exact_formula_refuted :
    draw_background trivLib specGradGray 1080 1920 0 1912 =
      ((0, 0, 0), 255) ∧
    gradChannelExact 240 0 1912 1920 = 1 ∧
    ⌊((240 : ℚ) * (1 - (1912 : ℚ) / 1920) +
      (0 : ℚ) * ((1912 : ℚ) / 1920))⌋₊ = 1 ∧
    draw_background trivLib specGradGray 1080 1920 0 1912 ≠
      ((⌊((240 : ℚ) * (1 - (1912 : ℚ) / 1920) +
          (0 : ℚ) * ((1912 : ℚ) / 1920))⌋₊,
        ⌊((240 : ℚ) * (1 - (1912 : ℚ) / 1920) +
          (0 : ℚ) * ((1912 : ℚ) / 1920))⌋₊,
        ⌊((240 : ℚ) * (1 - (1912 : ℚ) / 1920) +
          (0 : ℚ) * ((1912 : ℚ) / 1920))⌋₊), 255) := by
  have hdraw : draw_background trivLib specGradGray 1080 1920 0 1912 =
      ((0, 0, 0), 255) := by decide
  have hval : ((240 : ℚ) * (1 - (1912 : ℚ) / 1920) +
      (0 : ℚ) * ((1912 : ℚ) / 1920)) = 1 := by norm_num
  have hfl : ⌊((240 : ℚ) * (1 - (1912 : ℚ) / 1920) +
      (0 : ℚ) * ((1912 : ℚ) / 1920))⌋₊ = 1 := by
    rw [hval, Nat.floor_one]
  refine ⟨hdraw, by decide, hfl, ?_⟩
  rw [hdraw, hfl]
  decide

/-- C8 (amended): each channel of gradient scanline `y` equals the
IEEE-754 binary64 evaluation of `c1 * (1 - y/h) + c2 * (y/h)` truncated
to an integer — correctly rounded division, subtraction, multiplications
and addition, exactly as Python computes it (`gradChannel`), which can
differ by one from the exact-arithmetic truncation at some pixels — and
a malformed color list (fewer than two resolvable entries) defaults to
the black→white gradient. -/
theorem gradient_scanline_binary64 :
    (∀ (lib : Lib) (data : Spec) (w h x y : ℕ) (c1s c2s : String)
       (rest : List String),
       data.background_type = some "gradient" →
       data.background_colors = some (c1s :: c2s :: rest) →
       draw_background lib data w h x y =
         ((gradChannel (parse_color c1s "#000000").1
             (parse_color c2s "#000000").1 y h,
           gradChannel (parse_color c1s "#000000").2.1
             (parse_color c2s "#000000").2.1 y h,
           gradChannel (parse_color c1s "#000000").2.2
             (parse_color c2s "#000000").2.2 y h), 255)) ∧
    (∀ (lib : Lib) (data : Spec) (w h x y : ℕ) (l : List String),
       data.background_type = some "gradient" →
       data.background_colors = some l → l.length < 2 →
       draw_background lib data w h x y =
         ((gradChannel 0 255 y h, gradChannel 0 255 y h,
           gradChannel 0 255 y h), 255)) :=
  ⟨fun lib data w h x y c1s c2s rest hb hc =>
    gradient_pixel_float lib data w h x y c1s c2s rest hb hc,
   fun lib data w h x y l hb hc hl =>
    gradient_malformed_float lib data w h x y l hb hc hl⟩

/-- Witness for C8 (amended): the black→white gradient on a height-4
canvas draws scanline 1 at channel `int(255 * 0.25) = 63` (exact in
binary64 here). -/
theorem gradient_scanline_binary64_witness :
    draw_background trivLib specGradBW 2 4 0 1 = ((63, 63, 63), 255) := by
  have h := gradient_scanline_binary64.1 trivLib specGradBW 2 4 0 1
    "#000000" "#FFFFFF" [] rfl rfl
  rw [h]
  decide
